import Mathlib

/-!
Shallow embedding of the task-scheduler service.

The embedding covers the durable task/result model (`internal/models`),
the HTTP executor and its retry decorator (`internal/executor`), the
scheduler (arming, cron-tick callback, dispatch body, recovery sweep),
the cron expression parser of robfig/cron v3 as configured at the two
call sites (create-time validation with `cron.ParseStandard`, and the
scheduler cron runner built via `cron.New(cron.WithSeconds())`), the
pagination of the list handlers, and the metrics sink.  Instants are
nanosecond counts (Go `time.Time` / `time.Duration`), identifiers are
naturals, and the Go string-typed enums (`TriggerType`, `TaskStatus`)
are Lean strings with the source constants.
-/

namespace TaskSchedulerModel

/-- Trigger type constant `models.TriggerTypeOneOff`. -/
def TriggerTypeOneOff : String := "one-off"

/-- Trigger type constant `models.TriggerTypeCron`. -/
def TriggerTypeCron : String := "cron"

/-- Status constant `models.TaskStatusScheduled`. -/
def TaskStatusScheduled : String := "scheduled"

/-- Status constant `models.TaskStatusCancelled`. -/
def TaskStatusCancelled : String := "cancelled"

/-- Status constant `models.TaskStatusCompleted`. -/
def TaskStatusCompleted : String := "completed"

/-- Durable task record (`models.Task`).  Fields irrelevant to the claims
(headers, payload, created/updated stamps) are omitted; instants are
nanosecond counts. -/
structure Task where
  id : Nat
  name : String
  triggerType : String
  triggerTime : Option Nat
  cronExpr : Option String
  method : String
  url : String
  status : String
  nextRun : Option Nat
  deriving DecidableEq, Repr

/-- Execution record (`models.TaskResult`).  The response body is a byte
list, matching the byte-level cap applied by the executor. -/
structure TaskResult where
  taskId : Nat
  runAt : Nat
  statusCode : Option Nat
  success : Bool
  responseHeaders : List (String × String)
  responseBody : Option (List Nat)
  errorMessage : Option String
  durationMs : Nat
  deriving DecidableEq, Repr

/-!  Retry decorator (`internal/executor/retry_executor.go`). -/

/-- Loop body of `RetryExecutor.Execute`: the Go loop runs `attempt` from 0
through `maxRetries`, invoking the wrapped executor each time, returning the
first successful result immediately and otherwise the result of the last
attempt.  `remaining` counts the iterations still allowed after the current
one; the attempt results are abstracted as a function from the attempt index.
The returned natural is the number of attempts performed. -/
def retryLoop (exec : Nat → TaskResult) (attempt : Nat) : Nat → TaskResult × Nat
  | 0 => (exec attempt, attempt + 1)
  | remaining + 1 =>
    let result := exec attempt
    if result.success then (result, attempt + 1)
    else retryLoop exec (attempt + 1) remaining

/-- `RetryExecutor.Execute` with a given `maxRetries` (the fixed retry delay
only suspends the worker and does not affect the returned value). -/
def retryExecute (maxRetries : Nat) (exec : Nat → TaskResult) : TaskResult × Nat :=
  retryLoop exec 0 maxRetries

/-- Retry count wired in `NewScheduler`:
`executor.NewRetryExecutor(httpExecutor, 2, 5*time.Second)`. -/
def schedulerMaxRetries : Nat := 2

/-- Retry delay wired in `NewScheduler`, in seconds. -/
def schedulerRetryDelaySeconds : Nat := 5

/-- The retrying executor exactly as the scheduler configures it. -/
def schedulerRetryExecute (exec : Nat → TaskResult) : TaskResult × Nat :=
  retryExecute schedulerMaxRetries exec

/-!  Response body cap (`HTTPExecutor.Execute`, the truncation block). -/

/-- Byte cap on stored response bodies (Go: `if len(bodyStr) > 10000`). -/
def responseBodyCap : Nat := 10000

/-- UTF-8 bytes of the literal marker appended on truncation, fifteen bytes
spelling out dot dot dot, space, and the parenthesized word truncated. -/
def truncationMarker : List Nat :=
  [46, 46, 46, 32, 40, 116, 114, 117, 110, 99, 97, 116, 101, 100, 41]

/-- Store a response body: bodies longer than the cap are cut to the first
`responseBodyCap` bytes and the marker is appended. -/
def storeBody (body : List Nat) : List Nat :=
  if body.length > responseBodyCap then body.take responseBodyCap ++ truncationMarker
  else body

/-!  HTTP executor (`HTTPExecutor.Execute`).  The network is abstracted as an
outcome: request preparation may fail, the transport may fail, or a response
arrives carrying a status code, headers (each name with its value list), and
a body read that either yields the bytes or fails mid-read. -/

/-- Outcome of one HTTP attempt as seen by the executor code. -/
inductive HTTPOutcome where
  | prepFailure (msg : String)
  | transportFailure (msg : String)
  | response (statusCode : Nat) (headers : List (String × List String))
      (bodyRead : Except String (List Nat))
  deriving Repr

/-- One attempt of `HTTPExecutor.Execute`.  `elapsedMs` stands for the wall
clock readings the code takes (the claims do not depend on durations, so a
single reading is threaded through).  The translation follows the source
order: duration and status are set on response, success is decided from the
status code alone, headers keep the first value per name, then the body is
read; a failed body read sets the error message and returns early, leaving
`success` as the status code decided it; otherwise the body is stored capped
and a non-success result gets its status-derived error message. -/
def httpExecute (t : Task) (startTime elapsedMs : Nat) (outcome : HTTPOutcome) : TaskResult :=
  let base : TaskResult :=
    { taskId := t.id, runAt := startTime, statusCode := none, success := false,
      responseHeaders := [], responseBody := none, errorMessage := none, durationMs := 0 }
  match outcome with
  | .prepFailure msg =>
    { base with errorMessage := some ("Failed to prepare request: " ++ msg),
                durationMs := elapsedMs }
  | .transportFailure msg =>
    { base with errorMessage := some ("HTTP request failed: " ++ msg),
                durationMs := elapsedMs }
  | .response status headers bodyRead =>
    let r1 : TaskResult :=
      { base with durationMs := elapsedMs, statusCode := some status,
                  success := decide (200 ≤ status ∧ status < 300),
                  responseHeaders :=
                    headers.filterMap (fun p => (p.2.head?).map (fun v => (p.1, v))) }
    match bodyRead with
    | .error msg => { r1 with errorMessage := some ("Failed to read response body: " ++ msg) }
    | .ok body =>
      let r2 : TaskResult := { r1 with responseBody := some (storeBody body) }
      if r2.success then r2
      else
        match r2.errorMessage with
        | none => { r2 with errorMessage := some ("HTTP request returned status " ++ toString status) }
        | some m => { r2 with errorMessage := some (m ++ " (status: " ++ toString status ++ ")") }

/-!  List-endpoint pagination (`GetTasks`, `GetTaskResults`, `GetResults`).
Each handler runs the same snippet on the parsed `limit` query value. -/

/-- Effective page size in `TaskHandler.GetTasks`:
`if limit < 1 || limit > 100 then limit = 10`. -/
def getTasksEffectiveLimit (limit : Int) : Int :=
  if limit < 1 ∨ limit > 100 then 10 else limit

/-- Effective page size in `TaskHandler.GetTaskResults` (same snippet). -/
def getTaskResultsEffectiveLimit (limit : Int) : Int :=
  if limit < 1 ∨ limit > 100 then 10 else limit

/-- Effective page size in `ResultHandler.GetResults` (same snippet). -/
def getResultsEffectiveLimit (limit : Int) : Int :=
  if limit < 1 ∨ limit > 100 then 10 else limit

/-!  Metrics sink (`internal/metrics`). -/

/-- In-memory metrics state (`metrics.Metrics`); durations in nanoseconds,
timestamps as instants. -/
structure MetricsState where
  totalTasksExecuted : Nat
  successfulTasks : Nat
  failedTasks : Nat
  totalExecutionTime : Nat
  averageExecutionTime : Nat
  lastMinuteExecutions : List Nat
  tasksPerMinute : Nat
  deriving DecidableEq, Repr

/-- Fresh sink (`NewMetrics`). -/
def newMetrics : MetricsState := ⟨0, 0, 0, 0, 0, [], 0⟩

/-- Reset sink (`Metrics.Reset`). -/
def resetMetrics : MetricsState := ⟨0, 0, 0, 0, 0, [], 0⟩

/-- Nanoseconds in one minute. -/
def nanosPerMinute : Nat := 60000000000

/-- Nanoseconds in one millisecond. -/
def nanosPerMilli : Nat := 1000000

/-- Window pruning in `RecordTaskExecution`: the Go loop finds the first
timestamp strictly after the cutoff, slices the list from it and breaks;
when no timestamp is after the cutoff the list is left unchanged. -/
def pruneLastMinute (l : List Nat) (cutoff : Nat) : List Nat :=
  match l.findIdx? (fun t => decide (cutoff < t)) with
  | some i => l.drop i
  | none => l

/-- `Metrics.RecordTaskExecution`: bump the counters, recompute the mean by
integer division, append the timestamp and prune the one-minute window. -/
def recordTaskExecution (m : MetricsState) (now duration : Nat) (success : Bool) : MetricsState :=
  let total := m.totalTasksExecuted + 1
  let totalTime := m.totalExecutionTime + duration
  let window := pruneLastMinute (m.lastMinuteExecutions ++ [now]) (now - nanosPerMinute)
  { totalTasksExecuted := total,
    successfulTasks := if success then m.successfulTasks + 1 else m.successfulTasks,
    failedTasks := if success then m.failedTasks else m.failedTasks + 1,
    totalExecutionTime := totalTime,
    averageExecutionTime := totalTime / total,
    lastMinuteExecutions := window,
    tasksPerMinute := window.length }

/-- Snapshot returned by `Metrics.GetMetrics`; the success rate is a rational
standing for the Go float division. -/
structure MetricsSnapshot where
  totalTasksExecuted : Nat
  successfulTasks : Nat
  failedTasks : Nat
  successRatePercent : ℚ
  averageExecutionMs : Nat
  tasksPerMinute : Nat
  deriving DecidableEq, Repr

/-- `Metrics.GetMetrics`: the success-rate division is guarded by
`TotalTasksExecuted > 0`, and the mean is reported in milliseconds. -/
def getMetrics (m : MetricsState) : MetricsSnapshot :=
  { totalTasksExecuted := m.totalTasksExecuted,
    successfulTasks := m.successfulTasks,
    failedTasks := m.failedTasks,
    successRatePercent :=
      if m.totalTasksExecuted > 0 then
        (m.successfulTasks : ℚ) / (m.totalTasksExecuted : ℚ) * 100
      else 0,
    averageExecutionMs := m.averageExecutionTime / nanosPerMilli,
    tasksPerMinute := m.tasksPerMinute }

/-- Metrics states the process can actually reach: the fresh sink, followed
by any number of recorded executions and resets. -/
inductive MetricsReachable : MetricsState → Prop
  | init : MetricsReachable newMetrics
  | record (m : MetricsState) (now duration : Nat) (success : Bool) :
      MetricsReachable m → MetricsReachable (recordTaskExecution m now duration success)
  | reset (m : MetricsState) : MetricsReachable m → MetricsReachable resetMetrics

/-!  Cron expression parsing, robfig/cron v3, reduced to accept/reject.
Two configurations occur in the source: `cron.ParseStandard` (five fields
plus descriptors), used by `validateTrigger`; and the parser of
`cron.New(cron.WithSeconds())` (six fields plus descriptors), used when
`scheduleCronTask` calls `AddFunc`.  `calculateNextCronRun` builds a third
one: five fields without the descriptor bit.  Names of months and weekdays
are the three-letter lowercase forms; Go `strings.Fields` whitespace is
modelled on its ASCII subset, sign prefixes on numbers and the `TZ=`
prefix are not modelled (no claim involves them). -/

/-- Whitespace recognized by `strings.Fields` (ASCII subset). -/
def isSpaceChar (c : Char) : Bool :=
  c = ' ' ∨ c = '\t' ∨ c = '\n' ∨ c = '\r' ∨ c = '\x0b' ∨ c = '\x0c'

/-- Accumulating splitter behind `fieldsBy`. -/
def fieldsByAux (p : Char → Bool) : List Char → List Char → List (List Char)
  | [], acc => if acc.isEmpty then [] else [acc.reverse]
  | c :: cs, acc =>
    if p c then
      if acc.isEmpty then fieldsByAux p cs []
      else acc.reverse :: fieldsByAux p cs []
    else fieldsByAux p cs (c :: acc)

/-- Split into maximal runs of non-separator characters, dropping empty
runs (Go `strings.Fields` / `strings.FieldsFunc`). -/
def fieldsBy (p : Char → Bool) (cs : List Char) : List (List Char) :=
  fieldsByAux p cs []

/-- Whitespace-separated fields of a cron spec. -/
def splitFields (cs : List Char) : List (List Char) :=
  fieldsBy isSpaceChar cs

/-- Accumulating splitter behind `splitOn`. -/
def splitOnAux (sep : Char) : List Char → List Char → List (List Char)
  | [], acc => [acc.reverse]
  | c :: cs, acc =>
    if c = sep then acc.reverse :: splitOnAux sep cs []
    else splitOnAux sep cs (c :: acc)

/-- Split on every separator occurrence, keeping empty pieces
(Go `strings.Split`). -/
def splitOn (sep : Char) (cs : List Char) : List (List Char) :=
  splitOnAux sep cs []

/-- Value of a decimal digit character. -/
def digitVal? (c : Char) : Option Nat :=
  if '0' ≤ c ∧ c ≤ '9' then some (c.toNat - 48) else none

/-- Accumulator for `parseNat?`. -/
def parseNatAux : List Char → Nat → Option Nat
  | [], acc => some acc
  | c :: cs, acc =>
    match digitVal? c with
    | some d => parseNatAux cs (acc * 10 + d)
    | none => none

/-- Parse an unsigned decimal numeral (`strconv.Atoi` restricted to the
digit strings the cron fields use; negative numbers are rejected by
robfig `mustParseInt` anyway). -/
def parseNat? (cs : List Char) : Option Nat :=
  if cs.isEmpty then none else parseNatAux cs 0

/-- Lowercase an ASCII letter. -/
def lowerChar (c : Char) : Char :=
  if 'A' ≤ c ∧ c ≤ 'Z' then Char.ofNat (c.toNat + 32) else c

/-- Month names accepted in the months field. -/
def monthNames : List (List Char × Nat) :=
  [("jan".data, 1), ("feb".data, 2), ("mar".data, 3), ("apr".data, 4),
   ("may".data, 5), ("jun".data, 6), ("jul".data, 7), ("aug".data, 8),
   ("sep".data, 9), ("oct".data, 10), ("nov".data, 11), ("dec".data, 12)]

/-- Weekday names accepted in the day-of-week field. -/
def dowNames : List (List Char × Nat) :=
  [("sun".data, 0), ("mon".data, 1), ("tue".data, 2), ("wed".data, 3),
   ("thu".data, 4), ("fri".data, 5), ("sat".data, 6)]

/-- Bounds and name table of one cron field position. -/
structure CronFieldBounds where
  low : Nat
  high : Nat
  names : List (List Char × Nat)

/-- robfig `parseIntOrName`: try the lowercased name table, then the
numeral. -/
def parseIntOrName (names : List (List Char × Nat)) (cs : List Char) : Option Nat :=
  match names.lookup (cs.map lowerChar) with
  | some v => some v
  | none => parseNat? cs

/-- robfig `getRange` reduced to accept/reject: an expression of the shape
`low`, `low-high`, `*` or `?`, optionally followed by `/step`, checked
against the field bounds.  A lone value with a step extends the range to
the upper bound before the checks, exactly as the source does. -/
def getRange (b : CronFieldBounds) (expr : List Char) : Bool :=
  let rangeAndStep := splitOn '/' expr
  let r0 := rangeAndStep.headD []
  let lowAndHigh := splitOn '-' r0
  let startEnd : Option (Nat × Nat) :=
    match lowAndHigh with
    | [] => none
    | l0 :: ltail =>
      if l0 = ['*'] ∨ l0 = ['?'] then some (b.low, b.high)
      else
        match parseIntOrName b.names l0 with
        | none => none
        | some start =>
          match ltail with
          | [] => some (start, start)
          | [h] => (parseIntOrName b.names h).map (fun e => (start, e))
          | _ => none
  let step? : Option Nat :=
    match rangeAndStep with
    | [_] => some 1
    | [_, s] => parseNat? s
    | _ => none
  match startEnd, step? with
  | some se, some step =>
    let fin : Nat :=
      if rangeAndStep.length = 2 ∧ lowAndHigh.length = 1 then b.high else se.2
    decide (b.low ≤ se.1 ∧ fin ≤ b.high ∧ se.1 ≤ fin ∧ step ≠ 0)
  | _, _ => false

/-- robfig `getField`: comma-separated ranges; `strings.FieldsFunc` drops
empty pieces, so every kept range must parse. -/
def getField (b : CronFieldBounds) (field : List Char) : Bool :=
  (fieldsBy (fun c => c = ',') field).all (getRange b)

/-- Seconds field bounds. -/
def secondsBounds : CronFieldBounds := ⟨0, 59, []⟩

/-- Minutes field bounds. -/
def minutesBounds : CronFieldBounds := ⟨0, 59, []⟩

/-- Hours field bounds. -/
def hoursBounds : CronFieldBounds := ⟨0, 23, []⟩

/-- Day-of-month field bounds. -/
def domBounds : CronFieldBounds := ⟨1, 31, []⟩

/-- Months field bounds with names. -/
def monthsBounds : CronFieldBounds := ⟨1, 12, monthNames⟩

/-- Day-of-week field bounds with names. -/
def dowBounds : CronFieldBounds := ⟨0, 6, dowNames⟩

/-- Field layout of the standard five-field parser. -/
def standardFieldBounds : List CronFieldBounds :=
  [minutesBounds, hoursBounds, domBounds, monthsBounds, dowBounds]

/-- Field layout of the seconds-enabled six-field parser. -/
def withSecondsFieldBounds : List CronFieldBounds :=
  [secondsBounds, minutesBounds, hoursBounds, domBounds, monthsBounds, dowBounds]

/-- Named descriptors accepted when the descriptor bit is set. -/
def descriptorList : List (List Char) :=
  ["@yearly".data, "@annually".data, "@monthly".data, "@weekly".data,
   "@daily".data, "@midnight".data, "@hourly".data]

/-- Units of Go durations, longest spellings first so that prefix matching
is greedy (the unicode micro spellings are left out; no claim uses them). -/
def durationUnits : List (List Char) :=
  ["ns".data, "us".data, "ms".data, "s".data, "m".data, "h".data]

/-- Strip one duration unit from the front. -/
def stripUnit (cs : List Char) : Option (List Char) :=
  match durationUnits.find? (fun u => List.isPrefixOf u cs) with
  | some u => some (cs.drop u.length)
  | none => none

/-- Fueled loop behind `parseGoDuration`: repeatedly consume digits, an
optional fraction, and a unit. -/
def parseDurationLoop : Nat → List Char → Bool
  | _, [] => true
  | 0, _ => false
  | fuel + 1, cs =>
    let intSpan := cs.span (fun c => (digitVal? c).isSome)
    if intSpan.1.isEmpty then false
    else
      let afterNumber : Option (List Char) :=
        match intSpan.2 with
        | '.' :: rest =>
          let fracSpan := rest.span (fun c => (digitVal? c).isSome)
          if fracSpan.1.isEmpty then none else some fracSpan.2
        | other => some other
      match afterNumber with
      | none => false
      | some r =>
        match stripUnit r with
        | some r2 => parseDurationLoop fuel r2
        | none => false

/-- Accept check for Go `time.ParseDuration` on the grammar `@every` uses
(sign prefixes left out; no claim involves them). -/
def parseGoDuration (cs : List Char) : Bool :=
  ¬ cs.isEmpty && parseDurationLoop cs.length cs

/-- robfig `parseDescriptor` reduced to accept/reject. -/
def parseDescriptor (cs : List Char) : Bool :=
  if descriptorList.contains cs then true
  else if List.isPrefixOf "@every ".data cs then parseGoDuration (cs.drop 7)
  else false

/-- robfig `Parser.Parse` reduced to accept/reject: empty specs fail; a
spec starting with the at-sign is a descriptor and fails when the parser
was built without the descriptor bit; otherwise the whitespace-split field
count must equal the configured layout exactly and every field must parse
against its bounds. -/
def cronParseOk (bounds : List CronFieldBounds) (allowDescriptor : Bool) (spec : String) : Bool :=
  match spec.data with
  | [] => false
  | c :: cs =>
    if c = '@' then allowDescriptor && parseDescriptor (c :: cs)
    else
      let fields := splitFields (c :: cs)
      fields.length == bounds.length &&
        (List.zip bounds fields).all (fun p => getField p.1 p.2)

/-- `cron.ParseStandard`: five fields, descriptors allowed.  This is the
parser behind create-time validation. -/
def cronParseStandardOk (spec : String) : Bool :=
  cronParseOk standardFieldBounds true spec

/-- The parser of the scheduler cron runner, built by
`cron.New(cron.WithSeconds())`: six fields, descriptors allowed.  This is
what `AddFunc` applies inside `scheduleCronTask`. -/
def cronParseWithSecondsOk (spec : String) : Bool :=
  cronParseOk withSecondsFieldBounds true spec

/-- The parser `calculateNextCronRun` builds:
`cron.NewParser(cron.Minute | cron.Hour | cron.Dom | cron.Month | cron.Dow)`,
five fields, no descriptors. -/
def cronParseFiveFieldOk (spec : String) : Bool :=
  cronParseOk standardFieldBounds false spec

/-!  Create-time trigger validation (`TaskHandler.validateTrigger`). -/

/-- Request trigger shape (`models.CreateTaskTrigger`). -/
structure CreateTaskTrigger where
  type : String
  datetime : Option Nat
  cron : Option String
  deriving DecidableEq, Repr

/-- `validateTrigger`: one-off triggers need a future instant, cron triggers
need a non-empty expression accepted by `cron.ParseStandard`; any other
trigger type passes through unvalidated.  Returns the error message, if
any. -/
def validateTrigger (now : Nat) (trigger : CreateTaskTrigger) : Option String :=
  if trigger.type = TriggerTypeOneOff then
    match trigger.datetime with
    | none => some "datetime is required for one-off triggers"
    | some dt => if dt < now then some "datetime must be in the future" else none
  else if trigger.type = TriggerTypeCron then
    match trigger.cron with
    | none => some "cron expression is required for cron triggers"
    | some expr =>
      if expr = "" then some "cron expression is required for cron triggers"
      else if cronParseStandardOk expr then none
      else some "invalid cron expression"
  else none

/-- `calculateNextCronRun` (same body in the scheduler and the handler):
parse with the descriptor-free five-field parser, then ask the schedule for
the next instant after now.  The next-instant arithmetic of the library is
abstracted as `nextFn`; only parse success or failure steers the callers. -/
def calculateNextCronRun (nextFn : String → Nat → Nat) (expr : String) (now : Nat) :
    Except String Nat :=
  if cronParseFiveFieldOk expr then Except.ok (nextFn expr now)
  else Except.error "invalid cron expression"

/-!  Scheduler arming state (`Scheduler.ScheduleTask` and helpers).  The
`oneOffTasks` timer map is a list of task id and fire instant; registered
cron entries keep the id and expression; immediate dispatches record the
one-off tasks handed straight to a worker because their instant already
passed. -/

/-- In-memory arming state of the scheduler. -/
structure ArmState where
  oneOffTimers : List (Nat × Nat)
  cronEntries : List (Nat × String)
  immediateDispatches : List Nat
  deriving DecidableEq, Repr

/-- Arming state of a freshly constructed scheduler. -/
def emptyArmState : ArmState := ⟨[], [], []⟩

/-- Stop and drop the live timer of a task, if any. -/
def removeTimer (timers : List (Nat × Nat)) (id : Nat) : List (Nat × Nat) :=
  timers.filter (fun p => p.1 != id)

/-- `scheduleOneOffTask`: a missing trigger time is logged and ignored; an
existing timer is stopped; a non-positive delay dispatches immediately on a
worker; otherwise a timer is armed.  The first component is the returned
error. -/
def scheduleOneOffTask (now : Nat) (st : ArmState) (t : Task) : Option String × ArmState :=
  match t.triggerTime with
  | none => (none, st)
  | some fireAt =>
    let timers := removeTimer st.oneOffTimers t.id
    if fireAt ≤ now then
      (none, { st with oneOffTimers := timers,
                       immediateDispatches := st.immediateDispatches ++ [t.id] })
    else
      (none, { st with oneOffTimers := timers ++ [(t.id, fireAt)] })

/-- `scheduleCronTask`: a missing expression is logged and ignored; the
expression is handed to `AddFunc` of the seconds-enabled cron runner, whose
parse failure is returned as the error; on success a cron entry is
registered. -/
def scheduleCronTask (st : ArmState) (t : Task) : Option String × ArmState :=
  match t.cronExpr with
  | none => (none, st)
  | some expr =>
    if cronParseWithSecondsOk expr then
      (none, { st with cronEntries := st.cronEntries ++ [(t.id, expr)] })
    else (some "failed to parse cron expression", st)

/-- `Scheduler.ScheduleTask`: dispatch over the trigger type; an unknown
type is logged and ignored. -/
def scheduleTask (now : Nat) (st : ArmState) (t : Task) : Option String × ArmState :=
  if t.triggerType = TriggerTypeOneOff then scheduleOneOffTask now st t
  else if t.triggerType = TriggerTypeCron then scheduleCronTask st t
  else (none, st)

/-!  Durable store operations (`internal/repository`) as pure functions on
a task list and a result list. -/

/-- `TaskRepository.GetByID`: first record with the identity. -/
def getByID (db : List Task) (id : Nat) : Option Task :=
  db.find? (fun t => t.id == id)

/-- Status of a task as the store currently holds it. -/
def taskStatusInDb (db : List Task) (id : Nat) : Option String :=
  (getByID db id).map (fun t => t.status)

/-- `TaskRepository.Update` backed by gorm `Save`: replace the record with
the same identity, inserting when absent. -/
def saveTask (db : List Task) (t : Task) : List Task :=
  if db.any (fun u => u.id == t.id) then db.map (fun u => if u.id = t.id then t else u)
  else db ++ [t]

/-- `TaskRepository.Delete`: mark the record cancelled in place. -/
def markCancelled (db : List Task) (id : Nat) : List Task :=
  db.map (fun u => if u.id = id then { u with status := TaskStatusCancelled } else u)

/-- `TaskRepository.UpdateNextRun`. -/
def updateNextRun (db : List Task) (id : Nat) (v : Option Nat) : List Task :=
  db.map (fun u => if u.id = id then { u with nextRun := v } else u)

/-- Filter of `TaskRepository.GetScheduledTasks`:
status scheduled and next run null or not after now. -/
def isDueScheduled (now : Nat) (t : Task) : Bool :=
  t.status == TaskStatusScheduled &&
    (match t.nextRun with
     | none => true
     | some v => decide (v ≤ now))

/-- `TaskRepository.GetScheduledTasks` over the task list. -/
def getScheduledTasks (db : List Task) (now : Nat) : List Task :=
  db.filter (isDueScheduled now)

/-!  Dispatch body and its callers (`executeTask`, the cron-tick closure of
`scheduleCronTask`, and the recovery sweep `checkMissedTasks`). -/

/-- Durable state the dispatch body touches: the task store, the
append-only result store, and the metrics sink. -/
structure SchedState where
  tasks : List Task
  results : List TaskResult
  metrics : MetricsState
  deriving DecidableEq, Repr

/-- `Scheduler.executeTask`: run the (retrying) executor, stamp the result
with the start instant and the task identity, record metrics, append the
result, and for one-off triggers write the task back with status completed.
The executor is abstracted as a function from the task to its final
result. -/
def executeTask (executor : Task → TaskResult) (startTime : Nat) (st : SchedState)
    (t : Task) : SchedState :=
  let result0 := executor t
  let result := { result0 with runAt := startTime, taskId := t.id }
  let m := recordTaskExecution st.metrics startTime (result.durationMs * nanosPerMilli)
    result.success
  let results := st.results ++ [result]
  if t.triggerType = TriggerTypeOneOff then
    { tasks := saveTask st.tasks { t with status := TaskStatusCompleted },
      results := results, metrics := m }
  else
    { st with results := results, metrics := m }

/-- Body of the closure `scheduleCronTask` registers with the cron runner:
re-read the task by identity, skip unless the re-read status is scheduled,
dispatch through `executeTask`, then recompute and persist the next run.
A cron task without an expression would crash the source on the dereference
inside the callback; validated tasks always carry one. -/
def cronTickCallback (executor : Task → TaskResult) (nextFn : String → Nat → Nat)
    (now : Nat) (st : SchedState) (taskId : Nat) : SchedState :=
  match getByID st.tasks taskId with
  | none => st
  | some currentTask =>
    if currentTask.status = TaskStatusScheduled then
      let st1 := executeTask executor now st currentTask
      match currentTask.cronExpr with
      | some expr =>
        match calculateNextCronRun nextFn expr now with
        | Except.ok n => { st1 with tasks := updateNextRun st1.tasks currentTask.id (some n) }
        | Except.error _ => st1
      | none => st1
    else st

/-- Loop of `checkMissedTasks` over the fetched due tasks: tasks whose next
run is present and strictly before now are dispatched on a worker when
one-off, and get a recomputed next run persisted when cron (the source
would crash on a cron task without an expression; the parse of a validated
expression succeeds).  Returns the dispatched tasks and the persisted next
run updates. -/
def sweepLoop (nextFn : String → Nat → Nat) (lnow : Nat) :
    List Task → List Task × List (Nat × Nat)
  | [] => ([], [])
  | t :: rest =>
    let tail := sweepLoop nextFn lnow rest
    match t.nextRun with
    | some v =>
      if v < lnow then
        if t.triggerType = TriggerTypeOneOff then (t :: tail.1, tail.2)
        else if t.triggerType = TriggerTypeCron then
          match t.cronExpr with
          | some expr =>
            match calculateNextCronRun nextFn expr lnow with
            | Except.ok n => (tail.1, (t.id, n) :: tail.2)
            | Except.error _ => tail
          | none => tail
        else tail
      else tail
    | none => tail

/-- `Scheduler.checkMissedTasks`: fetch the due scheduled tasks (the query
reads the clock once, `qnow`) and run the loop against a second clock
reading `lnow`. -/
def checkMissedTasks (nextFn : String → Nat → Nat) (db : List Task) (qnow lnow : Nat) :
    List Task × List (Nat × Nat) :=
  sweepLoop nextFn lnow (getScheduledTasks db qnow)

/-!  The wired program around cancellation (for the cancellation claim).
`main` wires the HTTP handlers straight to the repositories: the DELETE
handler marks the task cancelled in the store and never calls
`Scheduler.UnscheduleTask`, while the timer armed by `scheduleOneOffTask`
holds the task record it captured and fires `executeTask` without
re-reading the status. -/

/-- Whole-system state: durable state plus the live one-off timers with the
task records their closures captured. -/
structure SysState where
  sched : SchedState
  oneOffTimers : List (Nat × Task)
  deriving DecidableEq, Repr

/-- Arm the timer of a one-off task, replacing any previous one
(`scheduleOneOffTask`, timer branch). -/
def armOneOffTimer (sys : SysState) (t : Task) : SysState :=
  { sys with oneOffTimers := (sys.oneOffTimers.filter (fun p => p.1 != t.id)) ++ [(t.id, t)] }

/-- The DELETE handler (`TaskHandler.DeleteTask` as wired in `main`): mark
cancelled in the store; the live timers are untouched. -/
def handlerCancelTask (sys : SysState) (id : Nat) : SysState :=
  { sys with sched := { sys.sched with tasks := markCancelled sys.sched.tasks id } }

/-- A one-off timer fires: the closure runs `executeTask` on the captured
task record without re-reading its status, then drops the timer. -/
def oneOffTimerFire (executor : Task → TaskResult) (now : Nat) (sys : SysState)
    (id : Nat) : SysState :=
  match sys.oneOffTimers.find? (fun p => p.1 == id) with
  | none => sys
  | some entry =>
    { sched := executeTask executor now sys.sched entry.2,
      oneOffTimers := sys.oneOffTimers.filter (fun p => p.1 != id) }

/-!  Concrete records used by the closed theorems. -/

/-- A plain scheduled cron task carrying a validated five-field
expression. -/
def cronDemoTask : Task :=
  ⟨1, "report", TriggerTypeCron, none, some "* * * * *", "GET",
   "http://example.com/run", TaskStatusScheduled, none⟩

/-- The trigger of `cronDemoTask` as submitted at create time. -/
def cronDemoTrigger : CreateTaskTrigger :=
  ⟨TriggerTypeCron, none, some "* * * * *"⟩

/-- A plain task used when an executor input is needed. -/
def httpDemoTask : Task :=
  ⟨2, "ping", TriggerTypeOneOff, some 1000, none, "GET",
   "http://example.com/ok", TaskStatusScheduled, some 1000⟩

/-- A minimal result whose success flag is the argument. -/
def demoResult (b : Bool) : TaskResult :=
  ⟨0, 0, none, b, [], none, none, 7⟩

/-- A scheduled cron task with a null next run, as the recovery sweep can
fetch it. -/
def nullNextRunCronTask : Task :=
  ⟨7, "nightly", TriggerTypeCron, none, some "* * * * *", "GET",
   "http://example.com/job", TaskStatusScheduled, none⟩

/-- The armed one-off task of the cancellation trace. -/
def cancelDemoTask : Task :=
  ⟨3, "later", TriggerTypeOneOff, some 500, none, "GET",
   "http://example.com/later", TaskStatusScheduled, some 500⟩

/-- Initial system state of the cancellation trace: the task persisted and
nothing armed yet. -/
def cancelDemoSys : SysState :=
  ⟨⟨[cancelDemoTask], [], newMetrics⟩, []⟩

/-- An executor that always reports success with status 200. -/
def alwaysOkExecutor : Task → TaskResult :=
  fun _ => ⟨0, 0, some 200, true, [], none, none, 5⟩

/-- A task whose trigger type is neither of the two known values. -/
def unknownTriggerTask : Task :=
  ⟨9, "odd", "every-minute", none, none, "GET",
   "http://example.com/odd", TaskStatusScheduled, none⟩

/-- Attempt results failing on the first attempt, succeeding on the
second. -/
def retryDemoExec : Nat → TaskResult :=
  fun i => demoResult (i == 1)

/-- A scheduled one-off task whose planned instant lies in the past of the
sweep times used by the closed statements. -/
def pastOneOffTask : Task :=
  ⟨4, "overdue", TriggerTypeOneOff, some 50, none, "POST",
   "http://example.com/fire", TaskStatusScheduled, some 50⟩

/-- Cancellation trace, step 1: the scheduler armed the timer at startup. -/
def cancelDemoArmed : SysState := armOneOffTimer cancelDemoSys cancelDemoTask

/-- Cancellation trace, step 2: the DELETE handler marks the task cancelled
without unscheduling it. -/
def cancelDemoCancelled : SysState := handlerCancelTask cancelDemoArmed 3

/-- Cancellation trace, step 3: the still-armed timer fires. -/
def cancelDemoFired : SysState := oneOffTimerFire alwaysOkExecutor 600 cancelDemoCancelled 3

/-!  Theorems settling the claims. -/

/-- C1: the claim fails on the code.  Create-time validation accepts the
standard five-field expression of `cronDemoTrigger`, yet `ScheduleTask` on
the cron task carrying the same expression returns an error and registers
no cron entry, because the cron runner built by
`cron.New(cron.WithSeconds())` demands exactly six fields. -/
theorem c1_validated_five_field_cron_fails_to_arm :
    validateTrigger 0 cronDemoTrigger = none ∧
    (scheduleTask 0 emptyArmState cronDemoTask).1.isSome = true ∧
    (scheduleTask 0 emptyArmState cronDemoTask).2 = emptyArmState := by
  decide

/-- C7: the claim fails on the code.  In the wired program the DELETE
handler marks a task cancelled without stopping its timer, so an armed
one-off timer still fires after cancellation: a result row is written for
the cancelled task, and the dispatch body even overwrites its status with
completed. -/
theorem c7_cancelled_one_off_still_writes_result :
    taskStatusInDb cancelDemoCancelled.sched.tasks 3 = some TaskStatusCancelled ∧
    cancelDemoCancelled.sched.results = [] ∧
    cancelDemoFired.sched.results.length = 1 ∧
    (cancelDemoFired.sched.results.map (fun r => r.taskId)) = [3] ∧
    taskStatusInDb cancelDemoFired.sched.tasks 3 = some TaskStatusCompleted := by
  decide

/-- C8 counterexample: a requested limit of 150 is replaced by the default
10 in all three list handlers, not clamped to 100 as the claim states. -/
theorem c8_counterexample_limit_150 :
    getTasksEffectiveLimit 150 = 10 ∧ getTaskResultsEffectiveLimit 150 = 10 ∧
    getResultsEffectiveLimit 150 = 10 ∧ getTasksEffectiveLimit 150 ≠ 100 := by
  decide

/-- C8 amended: in each of the three list handlers the effective page size
equals the requested limit when it lies in one through one hundred, and is
replaced by the default 10 otherwise, including every limit above one
hundred. -/
theorem c8_effective_limit_characterization (limit : Int) :
    (getTasksEffectiveLimit limit = if 1 ≤ limit ∧ limit ≤ 100 then limit else 10) ∧
    getTaskResultsEffectiveLimit limit = getTasksEffectiveLimit limit ∧
    getResultsEffectiveLimit limit = getTasksEffectiveLimit limit := by
  unfold getTasksEffectiveLimit getTaskResultsEffectiveLimit getResultsEffectiveLimit
  refine ⟨?_, rfl, rfl⟩
  split <;> split <;> first | rfl | omega

/-- C9: `ScheduleTask` returns no error and arms nothing, both for an
unknown trigger type and for a one-off task without a trigger time. -/
theorem c9_schedule_task_ignores_malformed (now : Nat) (st : ArmState) (t : Task) :
    (t.triggerType ≠ TriggerTypeOneOff → t.triggerType ≠ TriggerTypeCron →
      scheduleTask now st t = (none, st)) ∧
    (t.triggerType = TriggerTypeOneOff → t.triggerTime = none →
      scheduleTask now st t = (none, st)) := by
  constructor
  · intro h1 h2
    simp [scheduleTask, h1, h2]
  · intro h1 h2
    simp [scheduleTask, scheduleOneOffTask, h1, h2]

/-- C9 witness: the unknown trigger type is silently ignored on a concrete
task. -/
theorem c9_schedule_task_ignores_malformed_witness :
    scheduleTask 0 emptyArmState unknownTriggerTask = (none, emptyArmState) :=
  (c9_schedule_task_ignores_malformed 0 emptyArmState unknownTriggerTask).1
    (by decide) (by decide)

/-- C4 counterexample: a body of 10,001 bytes is stored as 10,015 bytes,
beyond the stated 10,000-byte bound; and a short body that happens to end
with the marker is stored verbatim, so a stored body can end with the
marker although nothing was truncated. -/
theorem c4_counterexample_stored_body_exceeds_cap :
    (storeBody (List.replicate 10001 97)).length = 10015 ∧
    storeBody truncationMarker = truncationMarker ∧
    truncationMarker <:+ storeBody truncationMarker ∧
    truncationMarker.length ≤ responseBodyCap := by
  refine ⟨?_, by decide, ⟨[], by decide⟩, by decide⟩
  have hc : (List.replicate 10001 (97 : Nat)).length > responseBodyCap := by
    rw [List.length_replicate]; decide
  unfold storeBody
  rw [if_pos hc, List.length_append, List.length_take, List.length_replicate]
  decide

/-- C4 amended: a body of at most 10,000 bytes is stored verbatim and a
longer one as its first 10,000 bytes followed by the marker; hence a stored
body is at most 10,015 bytes, its length exceeds 10,000 exactly when the
original did, and every truncated body ends with the marker while an
untruncated body is stored unchanged. -/
theorem c4_store_body_characterization (b : List Nat) :
    storeBody b = (if b.length ≤ responseBodyCap then b
                   else b.take responseBodyCap ++ truncationMarker) ∧
    (storeBody b).length ≤ responseBodyCap + truncationMarker.length ∧
    (responseBodyCap < (storeBody b).length ↔ responseBodyCap < b.length) ∧
    (if responseBodyCap < b.length then truncationMarker <:+ storeBody b
     else storeBody b = b) := by
  by_cases h : b.length ≤ responseBodyCap
  · have hsb : storeBody b = b := by
      unfold storeBody
      rw [if_neg (by omega)]
    refine ⟨?_, ?_, ?_, ?_⟩
    · rw [hsb, if_pos h]
    · rw [hsb]; omega
    · rw [hsb]
    · rw [if_neg (by omega), hsb]
  · have hsb : storeBody b = b.take responseBodyCap ++ truncationMarker := by
      unfold storeBody
      rw [if_pos (by omega)]
    have hlen : (storeBody b).length = responseBodyCap + truncationMarker.length := by
      rw [hsb, List.length_append, List.length_take]
      omega
    refine ⟨?_, ?_, ?_, ?_⟩
    · rw [hsb, if_neg h]
    · omega
    · constructor
      · intro _; omega
      · intro _; rw [hlen]; decide
    · rw [if_pos (by omega), hsb]
      exact ⟨b.take responseBodyCap, rfl⟩

/-- Reachable metrics states keep a zero mean while nothing has been
executed. -/
theorem metricsReachable_total_zero_avg (m : MetricsState) (h : MetricsReachable m) :
    m.totalTasksExecuted = 0 → m.averageExecutionTime = 0 := by
  induction h with
  | init => intro _; rfl
  | record m now duration success hm ih =>
    intro h0
    simp [recordTaskExecution] at h0
  | reset m hm ih => intro _; rfl

/-- C10: `GetMetrics` guards the division, reporting a zero success rate
(and a zero mean in milliseconds) when nothing has executed, and the exact
percentage otherwise. -/
theorem c10_get_metrics_never_divides_by_zero (m : MetricsState) (h : MetricsReachable m) :
    ((getMetrics m).successRatePercent =
      if m.totalTasksExecuted = 0 then 0
      else (m.successfulTasks : ℚ) / (m.totalTasksExecuted : ℚ) * 100) ∧
    (m.totalTasksExecuted = 0 → (getMetrics m).averageExecutionMs = 0) := by
  constructor
  · by_cases h0 : m.totalTasksExecuted = 0
    · simp [getMetrics, h0]
    · simp [getMetrics, h0, Nat.pos_of_ne_zero h0]
  · intro h0
    have havg := metricsReachable_total_zero_avg m h h0
    simp [getMetrics, havg]

/-- C10 witness: the fresh sink reports a zero success rate and a zero
mean. -/
theorem c10_get_metrics_witness :
    (getMetrics newMetrics).successRatePercent = 0 ∧
    (getMetrics newMetrics).averageExecutionMs = 0 := by
  have h := c10_get_metrics_never_divides_by_zero newMetrics MetricsReachable.init
  refine ⟨?_, h.2 rfl⟩
  rw [h.1]
  rfl

/-- C2: with the scheduler configuration of two retries, the retrying
executor performs at most three attempts, always returns the result of the
last attempt performed, stops at the first successful attempt, and performs
all three attempts when every attempt fails, returning the third result. -/
theorem c2_retry_executor_behaviour (exec : Nat → TaskResult) :
    (schedulerRetryExecute exec).2 ≤ 3 ∧
    (schedulerRetryExecute exec).1 = exec ((schedulerRetryExecute exec).2 - 1) ∧
    (∀ k, k < 3 → (exec k).success = true →
      (∀ j, j < k → (exec j).success = false) →
      schedulerRetryExecute exec = (exec k, k + 1)) ∧
    ((∀ j, j < 3 → (exec j).success = false) →
      schedulerRetryExecute exec = (exec 2, 3)) := by
  have hunfold : schedulerRetryExecute exec = retryLoop exec 0 2 := rfl
  have e1 : retryLoop exec 0 2 =
      if (exec 0).success then (exec 0, 1) else retryLoop exec 1 1 := rfl
  have e2 : retryLoop exec 1 1 =
      if (exec 1).success then (exec 1, 2) else retryLoop exec 2 0 := rfl
  have e3 : retryLoop exec 2 0 = (exec 2, 3) := rfl
  cases h0 : (exec 0).success
  · cases h1 : (exec 1).success
    · have hval : schedulerRetryExecute exec = (exec 2, 3) := by
        rw [hunfold, e1, h0, if_neg (by simp), e2, h1, if_neg (by simp), e3]
      refine ⟨by simp [hval], by simp [hval], ?_, fun _ => hval⟩
      intro k hk hsk hprev
      interval_cases k
      · rw [h0] at hsk; exact absurd hsk (by decide)
      · rw [h1] at hsk; exact absurd hsk (by decide)
      · exact hval
    · have hval : schedulerRetryExecute exec = (exec 1, 2) := by
        rw [hunfold, e1, h0, if_neg (by simp), e2, h1, if_pos rfl]
      refine ⟨by simp [hval], by simp [hval], ?_, ?_⟩
      · intro k hk hsk hprev
        interval_cases k
        · rw [h0] at hsk; exact absurd hsk (by decide)
        · exact hval
        · have := hprev 1 (by omega)
          rw [h1] at this; exact absurd this (by decide)
      · intro hall
        have := hall 1 (by omega)
        rw [h1] at this; exact absurd this (by decide)
  · have hval : schedulerRetryExecute exec = (exec 0, 1) := by
      rw [hunfold, e1, h0, if_pos rfl]
    refine ⟨by simp [hval], by simp [hval], ?_, ?_⟩
    · intro k hk hsk hprev
      interval_cases k
      · exact hval
      · have := hprev 0 (by omega)
        rw [h0] at this; exact absurd this (by decide)
      · have := hprev 0 (by omega)
        rw [h0] at this; exact absurd this (by decide)
    · intro hall
      have := hall 0 (by omega)
      rw [h0] at this; exact absurd this (by decide)

/-- C2 witness: with a first failing attempt and a second successful one,
the scheduler-configured retry executor returns the second result after two
attempts. -/
theorem c2_retry_executor_witness :
    schedulerRetryExecute retryDemoExec = (demoResult true, 2) := by
  have h := (c2_retry_executor_behaviour retryDemoExec).2.2.1 1 (by decide) (by decide)
    (by intro j hj; interval_cases j; decide)
  exact h

/-- Replacing the record with the identity of `t` makes `t` the record the
store returns for that identity, whether the record existed or not. -/
theorem getByID_saveTask (db : List Task) (t : Task) :
    getByID (saveTask db t) t.id = some t := by
  unfold saveTask
  by_cases h : db.any (fun u => u.id == t.id)
  · rw [if_pos h]
    induction db with
    | nil => simp at h
    | cons u rest ih =>
      rw [List.map_cons]
      by_cases hu : u.id = t.id
      · rw [if_pos hu]
        simp [getByID]
      · rw [if_neg hu]
        have hrest : rest.any (fun u => u.id == t.id) = true := by
          simp [List.any_cons, hu] at h
          simpa using h
        have := ih hrest
        unfold getByID at this ⊢
        rw [List.find?_cons_of_neg _ (by simp [hu])]
        exact this
  · rw [if_neg h]
    induction db with
    | nil => simp [getByID]
    | cons u rest ih =>
      have hu : ¬ (u.id = t.id) := by
        intro hcontra
        exact h (by simp [List.any_cons, hcontra])
      have hrest : ¬ (rest.any (fun u => u.id == t.id) = true) := by
        intro hcontra
        exact h (by simp [List.any_cons, hcontra])
      have := ih hrest
      unfold getByID at this ⊢
      rw [List.cons_append, List.find?_cons_of_neg _ (by simp [hu])]
      exact this

/-- Status read back after a save. -/
theorem taskStatusInDb_saveTask (db : List Task) (t : Task) :
    taskStatusInDb (saveTask db t) t.id = some t.status := by
  unfold taskStatusInDb
  rw [getByID_saveTask]
  rfl

/-- C5: after the dispatch body runs, a one-off task is durably completed
whatever the executor returned, a cron task keeps the store untouched, and
the stamped result is appended in every case. -/
theorem c5_dispatch_body_status (executor : Task → TaskResult) (startTime : Nat)
    (st : SchedState) (t : Task) :
    (t.triggerType = TriggerTypeOneOff →
      taskStatusInDb (executeTask executor startTime st t).tasks t.id =
        some TaskStatusCompleted) ∧
    (t.triggerType = TriggerTypeCron →
      (executeTask executor startTime st t).tasks = st.tasks) ∧
    (executeTask executor startTime st t).results =
      st.results ++ [{ executor t with runAt := startTime, taskId := t.id }] := by
  refine ⟨?_, ?_, ?_⟩
  · intro h
    unfold executeTask
    rw [if_pos h]
    exact taskStatusInDb_saveTask st.tasks { t with status := TaskStatusCompleted }
  · intro h
    unfold executeTask
    rw [if_neg (by rw [h]; decide)]
  · by_cases h : t.triggerType = TriggerTypeOneOff
    · unfold executeTask
      rw [if_pos h]
    · unfold executeTask
      rw [if_neg h]

/-- C5 witness: a concrete one-off dispatch leaves the task completed in
the store. -/
theorem c5_dispatch_body_status_witness :
    taskStatusInDb
      (executeTask alwaysOkExecutor 60 cancelDemoSys.sched cancelDemoTask).tasks
      cancelDemoTask.id = some TaskStatusCompleted :=
  (c5_dispatch_body_status alwaysOkExecutor 60 cancelDemoSys.sched cancelDemoTask).1
    (by decide)

/-- C3 counterexample: a 200 response whose body read fails yields a result
with both a true success flag and a present error message, so neither of
the two stated equivalences holds. -/
theorem c3_counterexample_success_with_error_message :
    (httpExecute httpDemoTask 0 1
      (HTTPOutcome.response 200 [] (Except.error "connection reset"))).success = true ∧
    ((httpExecute httpDemoTask 0 1
      (HTTPOutcome.response 200 [] (Except.error "connection reset"))).errorMessage).isSome
      = true := by
  decide

/-- C3 amended: the success flag is true exactly when a response with a 2xx
status code was received, regardless of whether the body read then failed;
and the error message is present exactly when the result is not successful
or the body read failed. -/
theorem c3_success_and_error_message_characterization (t : Task)
    (startTime elapsedMs : Nat) (o : HTTPOutcome) :
    ((httpExecute t startTime elapsedMs o).success = true ↔
      (∃ s hs b, o = HTTPOutcome.response s hs b ∧ 200 ≤ s ∧ s < 300)) ∧
    (((httpExecute t startTime elapsedMs o).errorMessage).isSome = true ↔
      ((httpExecute t startTime elapsedMs o).success = false ∨
        ∃ s hs e, o = HTTPOutcome.response s hs (Except.error e))) := by
  cases o with
  | prepFailure msg => simp [httpExecute]
  | transportFailure msg => simp [httpExecute]
  | response s hs br =>
    by_cases h2 : 200 ≤ s ∧ s < 300
    · cases br with
      | error msg => simp [httpExecute, h2]
      | ok body => simp [httpExecute, h2]
    · cases br with
      | error msg => simp [httpExecute, h2]
      | ok body => simp [httpExecute, h2]

/-- C3 witness: a transport failure produces an unsuccessful result whose
error message is present. -/
theorem c3_characterization_witness :
    ((httpExecute httpDemoTask 0 1 (HTTPOutcome.transportFailure "no route")).errorMessage).isSome
      = true :=
  (c3_success_and_error_message_characterization httpDemoTask 0 1
    (HTTPOutcome.transportFailure "no route")).2.mpr (Or.inl (by decide))

/-- A task without a planned next run is skipped by the sweep loop. -/
theorem sweepLoop_cons_of_nextRun_none (nextFn : String → Nat → Nat) (lnow : Nat)
    (u : Task) (rest : List Task) (hnr : u.nextRun = none) :
    sweepLoop nextFn lnow (u :: rest) = sweepLoop nextFn lnow rest := by
  simp [sweepLoop, hnr]

/-- A task whose planned next run has not strictly passed is skipped by the
sweep loop. -/
theorem sweepLoop_cons_of_not_due (nextFn : String → Nat → Nat) (lnow : Nat)
    (u : Task) (rest : List Task) (v : Nat) (hnr : u.nextRun = some v)
    (hvl : ¬ v < lnow) :
    sweepLoop nextFn lnow (u :: rest) = sweepLoop nextFn lnow rest := by
  simp [sweepLoop, hnr, hvl]

/-- A due one-off task is dispatched by the sweep loop. -/
theorem sweepLoop_cons_oneoff_due_fst (nextFn : String → Nat → Nat) (lnow : Nat)
    (u : Task) (rest : List Task) (v : Nat) (hnr : u.nextRun = some v)
    (hvl : v < lnow) (ht : u.triggerType = TriggerTypeOneOff) :
    (sweepLoop nextFn lnow (u :: rest)).1 = u :: (sweepLoop nextFn lnow rest).1 := by
  simp [sweepLoop, hnr, hvl, ht]

/-- A due one-off task adds no next-run update in the sweep loop. -/
theorem sweepLoop_cons_oneoff_due_snd (nextFn : String → Nat → Nat) (lnow : Nat)
    (u : Task) (rest : List Task) (v : Nat) (hnr : u.nextRun = some v)
    (hvl : v < lnow) (ht : u.triggerType = TriggerTypeOneOff) :
    (sweepLoop nextFn lnow (u :: rest)).2 = (sweepLoop nextFn lnow rest).2 := by
  simp [sweepLoop, hnr, hvl, ht]

/-- A due cron task with a parsing expression is never dispatched by the
sweep loop. -/
theorem sweepLoop_cons_cron_ok_fst (nextFn : String → Nat → Nat) (lnow : Nat)
    (u : Task) (rest : List Task) (v : Nat) (e : String) (hnr : u.nextRun = some v)
    (hvl : v < lnow) (ht : u.triggerType = TriggerTypeCron)
    (hexpr : u.cronExpr = some e) (hp : cronParseFiveFieldOk e = true) :
    (sweepLoop nextFn lnow (u :: rest)).1 = (sweepLoop nextFn lnow rest).1 := by
  have hne : ¬ u.triggerType = TriggerTypeOneOff := by rw [ht]; decide
  have hcn : ¬ (TriggerTypeCron = TriggerTypeOneOff) := by decide
  simp [sweepLoop, hnr, hvl, ht, hne, hcn, hexpr, calculateNextCronRun, hp]

/-- A due cron task with a parsing expression gets its recomputed next run
persisted by the sweep loop. -/
theorem sweepLoop_cons_cron_ok_snd (nextFn : String → Nat → Nat) (lnow : Nat)
    (u : Task) (rest : List Task) (v : Nat) (e : String) (hnr : u.nextRun = some v)
    (hvl : v < lnow) (ht : u.triggerType = TriggerTypeCron)
    (hexpr : u.cronExpr = some e) (hp : cronParseFiveFieldOk e = true) :
    (sweepLoop nextFn lnow (u :: rest)).2 =
      (u.id, nextFn e lnow) :: (sweepLoop nextFn lnow rest).2 := by
  have hne : ¬ u.triggerType = TriggerTypeOneOff := by rw [ht]; decide
  have hcn : ¬ (TriggerTypeCron = TriggerTypeOneOff) := by decide
  simp [sweepLoop, hnr, hvl, ht, hne, hcn, hexpr, calculateNextCronRun, hp]

/-- A due cron task whose expression does not parse is skipped entirely. -/
theorem sweepLoop_cons_cron_parse_fail (nextFn : String → Nat → Nat) (lnow : Nat)
    (u : Task) (rest : List Task) (v : Nat) (e : String) (hnr : u.nextRun = some v)
    (hvl : v < lnow) (ht : u.triggerType = TriggerTypeCron)
    (hexpr : u.cronExpr = some e) (hp : cronParseFiveFieldOk e = false) :
    sweepLoop nextFn lnow (u :: rest) = sweepLoop nextFn lnow rest := by
  have hne : ¬ u.triggerType = TriggerTypeOneOff := by rw [ht]; decide
  have hcn : ¬ (TriggerTypeCron = TriggerTypeOneOff) := by decide
  simp [sweepLoop, hnr, hvl, ht, hne, hcn, hexpr, calculateNextCronRun, hp]

/-- A due cron task without an expression is skipped by the model of the
sweep loop. -/
theorem sweepLoop_cons_cron_no_expr (nextFn : String → Nat → Nat) (lnow : Nat)
    (u : Task) (rest : List Task) (v : Nat) (hnr : u.nextRun = some v)
    (hvl : v < lnow) (ht : u.triggerType = TriggerTypeCron)
    (hexpr : u.cronExpr = none) :
    sweepLoop nextFn lnow (u :: rest) = sweepLoop nextFn lnow rest := by
  have hne : ¬ u.triggerType = TriggerTypeOneOff := by rw [ht]; decide
  have hcn : ¬ (TriggerTypeCron = TriggerTypeOneOff) := by decide
  simp [sweepLoop, hnr, hvl, ht, hne, hcn, hexpr]

/-- A due task of an unknown trigger type is skipped by the sweep loop. -/
theorem sweepLoop_cons_other_type (nextFn : String → Nat → Nat) (lnow : Nat)
    (u : Task) (rest : List Task) (v : Nat) (hnr : u.nextRun = some v)
    (hvl : v < lnow) (h1 : ¬ u.triggerType = TriggerTypeOneOff)
    (h2 : ¬ u.triggerType = TriggerTypeCron) :
    sweepLoop nextFn lnow (u :: rest) = sweepLoop nextFn lnow rest := by
  simp [sweepLoop, hnr, hvl, h1, h2]

/-- Membership in the dispatch list of the sweep loop: exactly the one-off
tasks of the input whose planned next run strictly precedes now. -/
theorem mem_sweepLoop_dispatched (nextFn : String → Nat → Nat) (lnow : Nat)
    (l : List Task) (t : Task) :
    t ∈ (sweepLoop nextFn lnow l).1 ↔
      (t ∈ l ∧ t.triggerType = TriggerTypeOneOff ∧
        ∃ v, t.nextRun = some v ∧ v < lnow) := by
  induction l with
  | nil => simp [sweepLoop]
  | cons u rest ih =>
    rcases hnr : u.nextRun with _ | v
    · rw [sweepLoop_cons_of_nextRun_none nextFn lnow u rest hnr, ih]
      constructor
      · rintro ⟨h1, h2, h3⟩
        exact ⟨List.mem_cons_of_mem u h1, h2, h3⟩
      · rintro ⟨hmem, h2, w, hw, hwl⟩
        rcases List.mem_cons.mp hmem with rfl | hmem2
        · rw [hnr] at hw; cases hw
        · exact ⟨hmem2, h2, w, hw, hwl⟩
    · by_cases hvl : v < lnow
      · by_cases ht : u.triggerType = TriggerTypeOneOff
        · rw [sweepLoop_cons_oneoff_due_fst nextFn lnow u rest v hnr hvl ht]
          rw [List.mem_cons, ih]
          constructor
          · rintro (rfl | ⟨h1, h2, h3⟩)
            · exact ⟨List.mem_cons_self t rest, ht, v, hnr, hvl⟩
            · exact ⟨List.mem_cons_of_mem u h1, h2, h3⟩
          · rintro ⟨hmem, h2, w, hw, hwl⟩
            rcases List.mem_cons.mp hmem with rfl | hmem2
            · exact Or.inl rfl
            · exact Or.inr ⟨hmem2, h2, w, hw, hwl⟩
        · have hstep : (sweepLoop nextFn lnow (u :: rest)).1 = (sweepLoop nextFn lnow rest).1 := by
            by_cases hc : u.triggerType = TriggerTypeCron
            · rcases hexpr : u.cronExpr with _ | e
              · rw [sweepLoop_cons_cron_no_expr nextFn lnow u rest v hnr hvl hc hexpr]
              · cases hp : cronParseFiveFieldOk e
                · rw [sweepLoop_cons_cron_parse_fail nextFn lnow u rest v e hnr hvl hc hexpr hp]
                · rw [sweepLoop_cons_cron_ok_fst nextFn lnow u rest v e hnr hvl hc hexpr hp]
            · rw [sweepLoop_cons_other_type nextFn lnow u rest v hnr hvl ht hc]
          rw [hstep, ih]
          constructor
          · rintro ⟨h1, h2, h3⟩
            exact ⟨List.mem_cons_of_mem u h1, h2, h3⟩
          · rintro ⟨hmem, h2, w, hw, hwl⟩
            rcases List.mem_cons.mp hmem with rfl | hmem2
            · exact absurd h2 ht
            · exact ⟨hmem2, h2, w, hw, hwl⟩
      · rw [sweepLoop_cons_of_not_due nextFn lnow u rest v hnr hvl, ih]
        constructor
        · rintro ⟨h1, h2, h3⟩
          exact ⟨List.mem_cons_of_mem u h1, h2, h3⟩
        · rintro ⟨hmem, h2, w, hw, hwl⟩
          rcases List.mem_cons.mp hmem with rfl | hmem2
          · rw [hnr] at hw
            cases hw
            exact absurd hwl hvl
          · exact ⟨hmem2, h2, w, hw, hwl⟩

/-- Membership in the persisted next-run updates of the sweep loop: exactly
one update per due cron task of the input whose expression parses, carrying
the recomputed instant. -/
theorem mem_sweepLoop_updates (nextFn : String → Nat → Nat) (lnow : Nat)
    (l : List Task) (p : Nat × Nat) :
    p ∈ (sweepLoop nextFn lnow l).2 ↔
      ∃ t, t ∈ l ∧ t.triggerType = TriggerTypeCron ∧ t.id = p.1 ∧
        (∃ v, t.nextRun = some v ∧ v < lnow) ∧
        (∃ e, t.cronExpr = some e ∧ cronParseFiveFieldOk e = true ∧
          p.2 = nextFn e lnow) := by
  induction l with
  | nil => simp [sweepLoop]
  | cons u rest ih =>
    rcases hnr : u.nextRun with _ | v
    · rw [sweepLoop_cons_of_nextRun_none nextFn lnow u rest hnr, ih]
      constructor
      · rintro ⟨t, h1, h2, h3, h4, h5⟩
        exact ⟨t, List.mem_cons_of_mem u h1, h2, h3, h4, h5⟩
      · rintro ⟨t, hmem, h2, h3, ⟨w, hw, hwl⟩, h5⟩
        rcases List.mem_cons.mp hmem with rfl | hmem2
        · rw [hnr] at hw; cases hw
        · exact ⟨t, hmem2, h2, h3, ⟨w, hw, hwl⟩, h5⟩
    · by_cases hvl : v < lnow
      · by_cases ht : u.triggerType = TriggerTypeOneOff
        · rw [sweepLoop_cons_oneoff_due_snd nextFn lnow u rest v hnr hvl ht, ih]
          constructor
          · rintro ⟨t, h1, h2, h3, h4, h5⟩
            exact ⟨t, List.mem_cons_of_mem u h1, h2, h3, h4, h5⟩
          · rintro ⟨t, hmem, h2, h3, h4, h5⟩
            rcases List.mem_cons.mp hmem with rfl | hmem2
            · rw [ht] at h2; exact absurd h2 (by decide)
            · exact ⟨t, hmem2, h2, h3, h4, h5⟩
        · by_cases hc : u.triggerType = TriggerTypeCron
          · rcases hexpr : u.cronExpr with _ | e
            · rw [sweepLoop_cons_cron_no_expr nextFn lnow u rest v hnr hvl hc hexpr, ih]
              constructor
              · rintro ⟨t, h1, h2, h3, h4, h5⟩
                exact ⟨t, List.mem_cons_of_mem u h1, h2, h3, h4, h5⟩
              · rintro ⟨t, hmem, h2, h3, h4, ⟨e2, he2, hp2, hval2⟩⟩
                rcases List.mem_cons.mp hmem with rfl | hmem2
                · rw [hexpr] at he2; cases he2
                · exact ⟨t, hmem2, h2, h3, h4, ⟨e2, he2, hp2, hval2⟩⟩
            · cases hp : cronParseFiveFieldOk e
              · rw [sweepLoop_cons_cron_parse_fail nextFn lnow u rest v e hnr hvl hc hexpr hp, ih]
                constructor
                · rintro ⟨t, h1, h2, h3, h4, h5⟩
                  exact ⟨t, List.mem_cons_of_mem u h1, h2, h3, h4, h5⟩
                · rintro ⟨t, hmem, h2, h3, h4, ⟨e2, he2, hp2, hval2⟩⟩
                  rcases List.mem_cons.mp hmem with rfl | hmem2
                  · rw [hexpr] at he2
                    cases he2
                    rw [hp] at hp2
                    exact absurd hp2 (by decide)
                  · exact ⟨t, hmem2, h2, h3, h4, ⟨e2, he2, hp2, hval2⟩⟩
              · rw [sweepLoop_cons_cron_ok_snd nextFn lnow u rest v e hnr hvl hc hexpr hp]
                rw [List.mem_cons, ih]
                constructor
                · rintro (rfl | ⟨t, h1, h2, h3, h4, h5⟩)
                  · exact ⟨u, List.mem_cons_self u rest, hc, rfl,
                      ⟨v, hnr, hvl⟩, ⟨e, hexpr, hp, rfl⟩⟩
                  · exact ⟨t, List.mem_cons_of_mem u h1, h2, h3, h4, h5⟩
                · rintro ⟨t, hmem, h2, h3, h4, ⟨e2, he2, hp2, hval2⟩⟩
                  rcases List.mem_cons.mp hmem with rfl | hmem2
                  · left
                    rw [hexpr] at he2
                    cases he2
                    rw [Prod.ext_iff]
                    exact ⟨h3.symm, hval2⟩
                  · exact Or.inr ⟨t, hmem2, h2, h3, h4, ⟨e2, he2, hp2, hval2⟩⟩
          · rw [sweepLoop_cons_other_type nextFn lnow u rest v hnr hvl ht hc, ih]
            constructor
            · rintro ⟨t, h1, h2, h3, h4, h5⟩
              exact ⟨t, List.mem_cons_of_mem u h1, h2, h3, h4, h5⟩
            · rintro ⟨t, hmem, h2, h3, h4, h5⟩
              rcases List.mem_cons.mp hmem with rfl | hmem2
              · exact absurd h2 hc
              · exact ⟨t, hmem2, h2, h3, h4, h5⟩
      · rw [sweepLoop_cons_of_not_due nextFn lnow u rest v hnr hvl, ih]
        constructor
        · rintro ⟨t, h1, h2, h3, h4, h5⟩
          exact ⟨t, List.mem_cons_of_mem u h1, h2, h3, h4, h5⟩
        · rintro ⟨t, hmem, h2, h3, ⟨w, hw, hwl⟩, h5⟩
          rcases List.mem_cons.mp hmem with rfl | hmem2
          · rw [hnr] at hw
            cases hw
            exact absurd hwl hvl
          · exact ⟨t, hmem2, h2, h3, ⟨w, hw, hwl⟩, h5⟩

/-- Characterization of the due-task filter predicate. -/
theorem isDueScheduled_iff (now : Nat) (t : Task) :
    isDueScheduled now t = true ↔
      (t.status = TaskStatusScheduled ∧
        (t.nextRun = none ∨ ∃ v, t.nextRun = some v ∧ v ≤ now)) := by
  unfold isDueScheduled
  rcases h : t.nextRun with _ | v
  · simp [h]
  · simp [h]

/-- The due-task query returns exactly the scheduled tasks whose next run
is null or not after now. -/
theorem mem_getScheduledTasks (db : List Task) (now : Nat) (t : Task) :
    t ∈ getScheduledTasks db now ↔
      (t ∈ db ∧ t.status = TaskStatusScheduled ∧
        (t.nextRun = none ∨ ∃ v, t.nextRun = some v ∧ v ≤ now)) := by
  unfold getScheduledTasks
  rw [List.mem_filter, isDueScheduled_iff]

/-- C6 counterexample: a scheduled cron task with a null next run is
examined by the sweep (the query returns it), yet the sweep neither
recomputes nor persists anything for it and dispatches nothing. -/
theorem c6_counterexample_null_next_run_cron_untouched :
    getScheduledTasks [nullNextRunCronTask] 100 = [nullNextRunCronTask] ∧
    checkMissedTasks (fun _ _ => 0) [nullNextRunCronTask] 100 100 = ([], []) := by
  decide

/-- C6 amended: the sweep examines exactly the scheduled tasks whose next
run is null or not after the query instant; it dispatches exactly the
examined one-off tasks whose next run strictly preceded the loop instant,
and persists a recomputed next run exactly for the examined cron tasks
whose next run strictly preceded the loop instant and whose expression
parses — examined tasks with a null next run are left untouched, and no
cron task is ever dispatched from the sweep path. -/
theorem c6_sweep_characterization (nextFn : String → Nat → Nat) (db : List Task)
    (qnow lnow : Nat) :
    (∀ t, t ∈ getScheduledTasks db qnow ↔
      (t ∈ db ∧ t.status = TaskStatusScheduled ∧
        (t.nextRun = none ∨ ∃ v, t.nextRun = some v ∧ v ≤ qnow))) ∧
    (∀ t, t ∈ (checkMissedTasks nextFn db qnow lnow).1 ↔
      (t ∈ db ∧ t.status = TaskStatusScheduled ∧
        t.triggerType = TriggerTypeOneOff ∧
        ∃ v, t.nextRun = some v ∧ v ≤ qnow ∧ v < lnow)) ∧
    (∀ p, p ∈ (checkMissedTasks nextFn db qnow lnow).2 ↔
      ∃ t, t ∈ db ∧ t.status = TaskStatusScheduled ∧
        t.triggerType = TriggerTypeCron ∧ t.id = p.1 ∧
        (∃ v, t.nextRun = some v ∧ v ≤ qnow ∧ v < lnow) ∧
        (∃ e, t.cronExpr = some e ∧ cronParseFiveFieldOk e = true ∧
          p.2 = nextFn e lnow)) := by
  refine ⟨fun t => mem_getScheduledTasks db qnow t, fun t => ?_, fun p => ?_⟩
  · unfold checkMissedTasks
    rw [mem_sweepLoop_dispatched, mem_getScheduledTasks]
    constructor
    · rintro ⟨⟨hdb, hs, hq⟩, h1, v, hv, hvl⟩
      rcases hq with hq | ⟨w, hw, hwq⟩
      · rw [hq] at hv; cases hv
      · rw [hw] at hv
        cases hv
        exact ⟨hdb, hs, h1, v, hw, hwq, hvl⟩
    · rintro ⟨hdb, hs, h1, v, hv, hvq, hvl⟩
      exact ⟨⟨hdb, hs, Or.inr ⟨v, hv, hvq⟩⟩, h1, v, hv, hvl⟩
  · unfold checkMissedTasks
    rw [mem_sweepLoop_updates]
    constructor
    · rintro ⟨t, hmem, h2, h3, ⟨v, hv, hvl⟩, h5⟩
      rcases (mem_getScheduledTasks db qnow t).mp hmem with ⟨hdb, hs, hq⟩
      rcases hq with hq | ⟨w, hw, hwq⟩
      · rw [hq] at hv; cases hv
      · rw [hw] at hv
        cases hv
        exact ⟨t, hdb, hs, h2, h3, ⟨v, hw, hwq, hvl⟩, h5⟩
    · rintro ⟨t, hdb, hs, h2, h3, ⟨v, hv, hvq, hvl⟩, h5⟩
      exact ⟨t, (mem_getScheduledTasks db qnow t).mpr ⟨hdb, hs, Or.inr ⟨v, hv, hvq⟩⟩,
        h2, h3, ⟨v, hv, hvl⟩, h5⟩

/-- C6 witness: a concrete overdue one-off task is dispatched by the
sweep. -/
theorem c6_sweep_characterization_witness :
    pastOneOffTask ∈ (checkMissedTasks (fun _ _ => 0) [pastOneOffTask] 100 100).1 :=
  ((c6_sweep_characterization (fun _ _ => 0) [pastOneOffTask] 100 100).2.1
    pastOneOffTask).mpr
    ⟨by decide, rfl, rfl, 50, rfl, by decide, by decide⟩

end TaskSchedulerModel
